import Mathlib

/-!
Verification of the bulk-create action in `src/actions/AAJ-850mm/server.js`.

The action is a single JavaScript function.  We shallowly embed it:

* JavaScript values are modelled by `JVal` (JSON values).  Numbers are
  modelled as integers: fractional and exponent numerals are outside the
  model, as is floating-point arithmetic (none of the verified claims
  involves non-integral numbers).
* `undefined` is modelled as `Option.none` wherever a value may be absent.
* `JSON.parse` is modelled by the executable parser `jsonParse` (a fuel
  based recursive-descent parser for the integer-number JSON fragment;
  string escapes cover the common cases).  `JSON.stringify` is modelled by
  `jsonSerialize`, `String(x)` by `jsToString`, `Number(x)` by
  `jsToNumber` (with `none` playing the role of `NaN`), and JavaScript
  truthiness by `truthy`.
* JavaScript objects are association lists in insertion order; property
  assignment (`obj[k] = v`) is `setKey`, which updates the first matching
  key in place and otherwise appends, exactly as JS insertion order works.
-/

mutual

/-- A JSON value (JavaScript value as far as this action manipulates
them).  Numbers are restricted to integers.  Arrays and objects carry
their own element/member list types (`JItems`, `JMembers`) so that all
recursion over values is plain mutual structural recursion. -/
inductive JVal where
  | null : JVal
  | bool : Bool → JVal
  | num : Int → JVal
  | str : String → JVal
  | arr : JItems → JVal
  | obj : JMembers → JVal

/-- The elements of a JSON array. -/
inductive JItems where
  | nil : JItems
  | cons : JVal → JItems → JItems

/-- The members of a JSON object, in insertion order. -/
inductive JMembers where
  | nil : JMembers
  | cons : String → JVal → JMembers → JMembers

end

/-- The elements of an array as a list. -/
def itemsToList : JItems → List JVal
  | JItems.nil => []
  | JItems.cons x xs => x :: itemsToList xs

/-- Array elements from a list. -/
def listToItems : List JVal → JItems
  | [] => JItems.nil
  | x :: xs => JItems.cons x (listToItems xs)

/-- The members of an object as an association list. -/
def memsToList : JMembers → List (String × JVal)
  | JMembers.nil => []
  | JMembers.cons k v kvs => (k, v) :: memsToList kvs

/-- Object members from an association list. -/
def listToMems : List (String × JVal) → JMembers
  | [] => JMembers.nil
  | (k, v) :: kvs => JMembers.cons k v (listToMems kvs)

/-- Array value from an element list. -/
def jarr (xs : List JVal) : JVal :=
  JVal.arr (listToItems xs)

/-- Object value from an association list. -/
def jobj (kvs : List (String × JVal)) : JVal :=
  JVal.obj (listToMems kvs)

/-- Strict-equality test `x === null` (the action never compares two
arbitrary values, only against `null` and against string literals). -/
def isNull : JVal → Bool
  | JVal.null => true
  | _ => false

/-- JavaScript truthiness of a value. -/
def truthy : JVal → Bool
  | JVal.null => false
  | JVal.bool b => b
  | JVal.num n => n != 0
  | JVal.str s => s != ""
  | JVal.arr _ => true
  | JVal.obj _ => true

/-- Property read `v.k`: `some` for a present object field, `none` for
`undefined`.  Non-object values have none of the fields this action reads
(`key`, `value`, `status`, `id`), so they yield `undefined`. -/
def getField : JVal → String → Option JVal
  | JVal.obj kvs, k => (memsToList kvs).lookup k
  | _, _ => none

/-- JavaScript object assignment `m[k] = v` on an association list in
insertion order: an existing key keeps its position and gets the new
value, a new key is appended. -/
def setKey (m : List (String × String)) (k v : String) : List (String × String) :=
  if m.any (fun kv => kv.1 = k) then
    m.map (fun kv => if kv.1 = k then (k, v) else kv)
  else m ++ [(k, v)]

/-- `setKey` for JSON-valued objects (used when parsing duplicate keys,
where later occurrences win but keep the first position, as in JS). -/
def setKeyJ (m : List (String × JVal)) (k : String) (v : JVal) : List (String × JVal) :=
  if m.any (fun kv => kv.1 = k) then
    m.map (fun kv => if kv.1 = k then (k, v) else kv)
  else m ++ [(k, v)]

/-- Is the first list a prefix of the second? -/
def isPrefixList : List Char → List Char → Bool
  | [], _ => true
  | _ :: _, [] => false
  | a :: as, b :: bs => a = b && isPrefixList as bs

/-- `s.startsWith(pre)`. -/
def jsStartsWith (s pre : String) : Bool :=
  isPrefixList pre.toList s.toList

/-- `s.endsWith(suf)`. -/
def jsEndsWith (s suf : String) : Bool :=
  isPrefixList suf.toList.reverse s.toList.reverse

/-- JavaScript whitespace (the ASCII fragment of `\s` / `trim`). -/
def jsWs (c : Char) : Bool :=
  c = ' ' ∨ c = Char.ofNat 9 ∨ c = Char.ofNat 10 ∨ c = Char.ofNat 13 ∨
    c = Char.ofNat 11 ∨ c = Char.ofNat 12

/-- `s.trim()`. -/
def jsTrim (s : String) : String :=
  String.mk (((s.toList.dropWhile jsWs).reverse.dropWhile jsWs).reverse)

/-- `t.slice(1, -1)`: drop the first and last character. -/
def dropFirstAndLast (s : String) : String :=
  String.mk ((s.toList.drop 1).dropLast)

/-- Literal split: scan left to right, cutting at each non-overlapping
occurrence of the (non-empty) separator.  Fuel is the input length. -/
def splitOnAux (sep : List Char) : Nat → List Char → List Char → List (List Char)
  | 0, cs, acc => [acc.reverse ++ cs]
  | fuel + 1, cs, acc =>
      match cs with
      | [] => [acc.reverse]
      | c :: rest =>
          if isPrefixList sep cs then
            acc.reverse :: splitOnAux sep fuel (cs.drop sep.length) []
          else splitOnAux sep fuel rest (c :: acc)

/-- `s.split(sep)` for a literal separator.  The action always escapes
regex metacharacters before splitting, so its regex split is this
literal split.  (An empty separator never reaches a split in the
action: `delimiter || ","` rules it out.) -/
def jsSplitOn (s sep : String) : List String :=
  if sep = "" then [s]
  else (splitOnAux sep.toList (s.toList.length + 1) s.toList []).map String.mk

/-- ASCII `toLowerCase` (the mode selector is compared against
`"keys"`, so only ASCII letters matter). -/
def asciiLower (c : Char) : Char :=
  if 65 ≤ c.toNat ∧ c.toNat ≤ 90 then Char.ofNat (c.toNat + 32) else c

/-- `s.toLowerCase()` on the ASCII fragment. -/
def jsToLower (s : String) : String :=
  String.mk (s.toList.map asciiLower)

/-- Value of a list of decimal digits. -/
def digitsToNat (cs : List Char) : Nat :=
  cs.foldl (fun a c => a * 10 + (c.toNat - 48)) 0

/-- A non-empty all-digit list parsed as a natural number. -/
def decimalNat? (cs : List Char) : Option Nat :=
  if cs.isEmpty ∨ ¬ (cs.all Char.isDigit) then none else some (digitsToNat cs)

/-- Decimal digits of a natural number (fuelled division loop). -/
def natToCharsAux : Nat → Nat → List Char
  | 0, _ => []
  | fuel + 1, n =>
      if n < 10 then [Char.ofNat (48 + n)]
      else natToCharsAux fuel (n / 10) ++ [Char.ofNat (48 + n % 10)]

/-- Decimal string of a natural number. -/
def natToString (n : Nat) : String :=
  String.mk (natToCharsAux (n + 1) n)

/-- Decimal string of an integer (as `String(n)` renders it). -/
def intToString (i : Int) : String :=
  if i < 0 then "-" ++ natToString i.natAbs else natToString i.natAbs

/-- `list.join(sep)`. -/
def joinWith (sep : String) : List String → String
  | [] => ""
  | [x] => x
  | x :: y :: xs => x ++ sep ++ joinWith sep (y :: xs)

/-- Escape one character for a JSON string literal (`JSON.stringify`). -/
def jsonEscapeChar (c : Char) : String :=
  if c = Char.ofNat 34 then "\\\""
  else if c = Char.ofNat 92 then "\\\\"
  else if c = Char.ofNat 10 then "\\n"
  else if c = Char.ofNat 9 then "\\t"
  else if c = Char.ofNat 13 then "\\r"
  else if c = Char.ofNat 8 then "\\b"
  else if c = Char.ofNat 12 then "\\f"
  else String.singleton c

/-- Escape a string for a JSON string literal. -/
def jsonEscape (s : String) : String :=
  String.join (s.toList.map jsonEscapeChar)

mutual

/-- `JSON.stringify` on the modelled values. -/
def jsonSerialize : JVal → String
  | JVal.null => "null"
  | JVal.bool true => "true"
  | JVal.bool false => "false"
  | JVal.num n => intToString n
  | JVal.str s => "\"" ++ jsonEscape s ++ "\""
  | JVal.arr xs => "[" ++ serializeItems xs ++ "]"
  | JVal.obj kvs => "\x7b" ++ serializeMembers kvs ++ "\x7d"

/-- Comma-joined serialization of array elements. -/
def serializeItems : JItems → String
  | JItems.nil => ""
  | JItems.cons x JItems.nil => jsonSerialize x
  | JItems.cons x (JItems.cons y ys) =>
      jsonSerialize x ++ "," ++ serializeItems (JItems.cons y ys)

/-- Comma-joined serialization of object members. -/
def serializeMembers : JMembers → String
  | JMembers.nil => ""
  | JMembers.cons k v JMembers.nil => "\"" ++ jsonEscape k ++ "\":" ++ jsonSerialize v
  | JMembers.cons k v (JMembers.cons k2 v2 kvs) =>
      "\"" ++ jsonEscape k ++ "\":" ++ jsonSerialize v ++ "," ++
        serializeMembers (JMembers.cons k2 v2 kvs)

end

mutual

/-- `String(x)` on the modelled values. -/
def jsToString : JVal → String
  | JVal.null => "null"
  | JVal.bool true => "true"
  | JVal.bool false => "false"
  | JVal.num n => intToString n
  | JVal.str s => s
  | JVal.obj _ => "[object Object]"
  | JVal.arr xs => joinElements xs

/-- `Array.prototype.toString` = `join(",")`; a `null` element joins as
`""`, every other element by its string form. -/
def joinElements : JItems → String
  | JItems.nil => ""
  | JItems.cons JVal.null JItems.nil => ""
  | JItems.cons x JItems.nil => jsToString x
  | JItems.cons JVal.null (JItems.cons y ys) =>
      "," ++ joinElements (JItems.cons y ys)
  | JItems.cons x (JItems.cons y ys) =>
      jsToString x ++ "," ++ joinElements (JItems.cons y ys)

end

/-- `Number(s)` on a string (integer fragment): trimmed empty string is 0,
an optionally signed decimal numeral is its value, anything else is NaN
(`none`).  Fractional, exponent and hex numerals are outside the model. -/
def strToNumber (s : String) : Option Int :=
  let t := jsTrim s
  if t = "" then some 0
  else
    match t.toList with
    | c :: ds =>
        if c = Char.ofNat 45 then (decimalNat? ds).map (fun n => -(n : Int))
        else if c = Char.ofNat 43 then (decimalNat? ds).map (fun n => (n : Int))
        else (decimalNat? t.toList).map (fun n => (n : Int))
    | [] => none

/-- `Number(x)` on the modelled values; `none` is NaN.  An array converts
via its string form, as in JS. -/
def jsToNumber : JVal → Option Int
  | JVal.num n => some n
  | JVal.bool b => some (cond b 1 0)
  | JVal.null => some 0
  | JVal.str s => strToNumber s
  | JVal.obj _ => none
  | JVal.arr xs => strToNumber (jsToString (JVal.arr xs))

/-- `Number(x)` where `x` may be `undefined` (`Number(undefined)` is NaN). -/
def jsToNumber0 (o : Option JVal) : Option Int :=
  match o with
  | some v => jsToNumber v
  | none => none

/-- Skip JSON whitespace. -/
def skipWs : List Char → List Char
  | c :: cs =>
      if c = ' ' ∨ c = Char.ofNat 9 ∨ c = Char.ofNat 10 ∨ c = Char.ofNat 13 then skipWs cs
      else c :: cs
  | [] => []

/-- Parse the body of a JSON string literal after the opening quote,
returning the decoded characters and the input after the closing quote.
Escapes cover the common cases; `\uXXXX` is outside the model. -/
def parseStringBody : List Char → Option (List Char × List Char)
  | [] => none
  | c :: cs =>
      if c = Char.ofNat 34 then some ([], cs)
      else if c = Char.ofNat 92 then
        match cs with
        | [] => none
        | e :: cs2 =>
            let dec : Option Char :=
              if e = Char.ofNat 34 then some (Char.ofNat 34)
              else if e = Char.ofNat 92 then some (Char.ofNat 92)
              else if e = Char.ofNat 47 then some (Char.ofNat 47)
              else if e = 'n' then some (Char.ofNat 10)
              else if e = 't' then some (Char.ofNat 9)
              else if e = 'r' then some (Char.ofNat 13)
              else if e = 'b' then some (Char.ofNat 8)
              else if e = 'f' then some (Char.ofNat 12)
              else none
            match dec with
            | none => none
            | some d =>
                match parseStringBody cs2 with
                | some (body, rest) => some (d :: body, rest)
                | none => none
      else
        match parseStringBody cs with
        | some (body, rest) => some (c :: body, rest)
        | none => none

/-- Parse a JSON integer numeral (optional minus, no leading zeros),
as `JSON.parse` accepts for the integer fragment. -/
def parseNumber (cs : List Char) : Option (JVal × List Char) :=
  let core : List Char → Option (Int × List Char) := fun ds =>
    let digits := ds.takeWhile Char.isDigit
    let rest := ds.dropWhile Char.isDigit
    match digits with
    | [] => none
    | [d] => (decimalNat? [d]).map (fun n => ((n : Int), rest))
    | d :: _ :: _ =>
        if d = '0' then none
        else (decimalNat? digits).map (fun n => ((n : Int), rest))
  match cs with
  | c :: cs2 =>
      if c = Char.ofNat 45 then
        (core cs2).map (fun p => (JVal.num (-p.1), p.2))
      else (core cs).map (fun p => (JVal.num p.1, p.2))
  | [] => none

mutual

/-- Recursive-descent JSON value parser (fuel-based). -/
def parseVal (fuel : Nat) (cs0 : List Char) : Option (JVal × List Char) :=
  match fuel with
  | 0 => none
  | fuel2 + 1 =>
      match skipWs cs0 with
      | [] => none
      | c :: rest =>
          if c = Char.ofNat 34 then
            match parseStringBody rest with
            | some (body, rest2) => some (JVal.str (String.mk body), rest2)
            | none => none
          else if c = '[' then
            match skipWs rest with
            | ']' :: rest2 => some (JVal.arr JItems.nil, rest2)
            | rest2 =>
                match parseVal fuel2 rest2 with
                | some (v, rest3) => parseArrRest fuel2 rest3 [v]
                | none => none
          else if c = '\x7b' then
            match skipWs rest with
            | '\x7d' :: rest2 => some (JVal.obj JMembers.nil, rest2)
            | rest2 =>
                match parseMember fuel2 rest2 [] with
                | some (kvs, rest3) => parseObjRest fuel2 rest3 kvs
                | none => none
          else if c = 't' then
            if rest.take 3 = ['r', 'u', 'e'] then some (JVal.bool true, rest.drop 3)
            else none
          else if c = 'f' then
            if rest.take 4 = ['a', 'l', 's', 'e'] then some (JVal.bool false, rest.drop 4)
            else none
          else if c = 'n' then
            if rest.take 3 = ['u', 'l', 'l'] then some (JVal.null, rest.drop 3)
            else none
          else parseNumber (c :: rest)

/-- After one array element: a comma and another element, or the close. -/
def parseArrRest (fuel : Nat) (cs : List Char) (acc : List JVal) :
    Option (JVal × List Char) :=
  match fuel with
  | 0 => none
  | fuel2 + 1 =>
      match skipWs cs with
      | ',' :: rest =>
          match parseVal fuel2 rest with
          | some (v, rest2) => parseArrRest fuel2 rest2 (acc ++ [v])
          | none => none
      | ']' :: rest => some (jarr acc, rest)
      | _ => none

/-- One object member `"key": value`, merged into the accumulated members
with later duplicates overwriting in place (as `JSON.parse` does). -/
def parseMember (fuel : Nat) (cs : List Char) (acc : List (String × JVal)) :
    Option (List (String × JVal) × List Char) :=
  match fuel with
  | 0 => none
  | fuel2 + 1 =>
      match skipWs cs with
      | c :: rest =>
          if c = Char.ofNat 34 then
            match parseStringBody rest with
            | some (key, rest2) =>
                match skipWs rest2 with
                | ':' :: rest3 =>
                    match parseVal fuel2 rest3 with
                    | some (v, rest4) => some (setKeyJ acc (String.mk key) v, rest4)
                    | none => none
                | _ => none
            | none => none
          else none
      | [] => none

/-- After one object member: a comma and another member, or the close. -/
def parseObjRest (fuel : Nat) (cs : List Char) (acc : List (String × JVal)) :
    Option (JVal × List Char) :=
  match fuel with
  | 0 => none
  | fuel2 + 1 =>
      match skipWs cs with
      | ',' :: rest =>
          match parseMember fuel2 rest acc with
          | some (kvs, rest2) => parseObjRest fuel2 rest2 kvs
          | none => none
      | '\x7d' :: rest => some (jobj acc, rest)
      | _ => none

end

/-- `JSON.parse` on the modelled fragment: parse one value and require
only whitespace to remain; `none` models a thrown `SyntaxError`. -/
def jsonParse (s : String) : Option JVal :=
  match parseVal (2 * s.toList.length + 2) s.toList with
  | some (v, rest) => if skipWs rest = [] then some v else none
  | none => none

/-- `toStr` from the action: `String(v == null ? "" : v)` — `null` and
`undefined` become the empty string. -/
def toStr0 (o : Option JVal) : String :=
  match o with
  | none => ""
  | some JVal.null => ""
  | some v => jsToString v

/-- `stripOuterQuotes` from the action: trim, then remove one pair of
matching surrounding single or double quotes if present. -/
def stripOuterQuotes (s : String) : String :=
  let t := jsTrim s
  let dq := String.singleton (Char.ofNat 34)
  let sq := String.singleton (Char.ofNat 39)
  if (jsStartsWith t dq ∧ jsEndsWith t dq) ∨ (jsStartsWith t sq ∧ jsEndsWith t sq) then
    dropFirstAndLast t
  else t

/-- The per-token cleanup the action applies after splitting:
`.map(x => stripOuterQuotes(toStr(x))).map(x => x.trim())` — on strings
`toStr` is the identity, so this is quote-stripping then trimming. -/
def cleanToken (x : String) : String :=
  jsTrim (stripOuterQuotes x)

/-- The JSON-array branch of `splitValueList`: if the (already trimmed)
input starts with `[` and parses as a JSON array, map each element to a
string with `toStr` (so a `null` element becomes `""`, not `"null"`)
and strip outer quotes; an empty array falls back to `[""]`.
`none` means the branch falls through (not `[`-initial, parse failure, or
parsed to a non-array — the last being unreachable for `JSON.parse`). -/
def jsonArrayTokens (s : String) : Option (List String) :=
  if jsStartsWith s "[" then
    match jsonParse s with
    | some (JVal.arr xs) =>
        let out := (itemsToList xs).map (fun x => stripOuterQuotes (toStr0 (some x)))
        some (if out.isEmpty then [""] else out)
    | _ => none
  else none

/-- `splitValueList` from the action.  The regex split on the
`escapeRegex`-escaped delimiter is a literal split (`String.splitOn`);
the comma fallback `split(/\s*,\s*/)` is modelled as a literal comma
split, which agrees after the per-token `trim` that immediately follows
(the regex differs only in whitespace adjacent to commas, which
`cleanToken` removes).  The source's final
`.filter(x => x.length || x === "")` keeps every string, and the trailing
`|| [""]` can never fire (an array is truthy), so neither appears here. -/
def splitValueList (raw : Option JVal) (delimiter : String) : List String :=
  let s := jsTrim (toStr0 raw)
  if s = "" then [""]
  else
    match jsonArrayTokens s with
    | some out => out
    | none =>
        let del := if delimiter = "" then "," else delimiter
        let parts := jsSplitOn s del
        if parts.length > 1 then parts.map cleanToken
        else (jsSplitOn s ",").map cleanToken

/-- One surviving column of `buildJsonlFromKeyLists`: a trimmed non-empty
key together with its tokenized value list. -/
structure Col where
  key : String
  values : List String
deriving DecidableEq

/-- The column-extraction step of `buildJsonlFromKeyLists`:
`.filter(p => p && p.key != null)` then key-trimming (dropping empty
keys) and tokenization. -/
def colsOf (pairs : JVal) (delimiter : String) : List Col :=
  (match pairs with | JVal.arr xs => itemsToList xs | _ => []).filterMap (fun p =>
    if truthy p then
      match getField p "key" with
      | some kv =>
          if isNull kv then none
          else
            let k := jsTrim (jsToString kv)
            if k = "" then none
            else some ⟨k, splitValueList (getField p "value") delimiter⟩
      | none => none
    else none)

/-- First token of a token list (`processedValues[0] || ""`; on strings
`t || ""` is `t`, and the list is never empty, so this is the head). -/
def firstToken : List String → String
  | t :: _ => t
  | [] => ""

/-- The persistent key/value pairs that survive filtering, as
`(trimmed key, first token)` in order.  Mirrors the
`.filter(p => p && p.key != null).forEach(...)` loop of
`buildJsonlFromKeyLists` with its inner `if (k)` guard. -/
def persistentEntries (persistentPairs : JVal) (delimiter : String) :
    List (String × String) :=
  (match persistentPairs with | JVal.arr xs => itemsToList xs | _ => []).filterMap (fun p =>
    if truthy p then
      match getField p "key" with
      | some kv =>
          if isNull kv then none
          else
            let k := jsTrim (jsToString kv)
            if k = "" then none
            else some (k, firstToken (splitValueList (getField p "value") delimiter))
      | none => none
    else none)

/-- `persistentObj`: the object assignments of the `forEach` loop. -/
def persistentObjOf (persistentPairs : JVal) (delimiter : String) :
    List (String × String) :=
  (persistentEntries persistentPairs delimiter).foldl
    (fun m kv => setKey m kv.1 kv.2) []

/-- `rowCount`: `cols.reduce((m, c) => Math.max(m, c.values.length), 0)`. -/
def maxValuesLen (cols : List Col) : Nat :=
  cols.foldl (fun m c => max m c.values.length) 0

/-- The row object for index `i`: a copy of `persistentObj` followed by
one assignment per column, padding with `""` past the end of a short
column (`c.values[i] !== undefined ? c.values[i] : ""`). -/
def rowObj (cols : List Col) (persistentObj : List (String × String)) (i : Nat) :
    List (String × String) :=
  cols.foldl (fun m c => setKey m c.key (c.values.getD i "")) persistentObj

/-- `JSON.stringify(obj)` for a row object (all values are strings). -/
def serializeRow (m : List (String × String)) : String :=
  jsonSerialize (jobj (m.map (fun kv => (kv.1, JVal.str kv.2))))

/-- `buildJsonlFromKeyLists` from the action: `(lines, count)`. -/
def buildJsonlFromKeyLists (pairs : JVal) (delimiter : String)
    (persistentPairs : JVal) : List String × Nat :=
  let cols := colsOf pairs delimiter
  if cols.isEmpty then ([], 0)
  else
    let pObj := persistentObjOf persistentPairs delimiter
    let n := maxValuesLen cols
    ((List.range n).map (fun i => serializeRow (rowObj cols pObj i)), n)

/-- Split on `/\r?\n/`: split at every newline, a carriage return
immediately before the newline being consumed with it. -/
def splitLinesCR (s : String) : List String :=
  (jsSplitOn s "\n").map (fun l =>
    if jsEndsWith l "\r" then String.mk l.toList.dropLast else l)

/-- One element of a sequence input to `toJsonlLines`: `none` is a hole
(`undefined`), which JSON values cannot represent. -/
abbrev SeqItem := Option JVal

/-- The filter of the sequence branch of `toJsonlLines`:
`x !== null && x !== undefined && String(x).trim() !== ""`. -/
def keepSeqItem : SeqItem → Bool
  | none => false
  | some v => !isNull v && jsTrim (jsToString v) != ""

/-- The map of the sequence branch of `toJsonlLines`:
`typeof x === "string" ? x.trim() : JSON.stringify(x)`. -/
def renderSeqItem : SeqItem → String
  | some (JVal.str s) => jsTrim s
  | some v => jsonSerialize v
  | none => "undefined"

/-- The sequence branch of `toJsonlLines` (`Array.isArray(input)`). -/
def toJsonlLinesSeq (xs : List SeqItem) : List String :=
  (xs.filter keepSeqItem).map renderSeqItem

/-- `toJsonlLines` from the action on a defined value.  The string
branch tries a whole-input JSON-array parse when the trimmed string is
`[`-initial (elements used verbatim if strings, serialized otherwise,
`null` holes dropped) and otherwise splits into trimmed non-empty lines;
arrays use the sequence branch; other truthy objects serialize to a
single line; everything else contributes nothing. -/
def toJsonlLines : JVal → List String
  | JVal.str s0 =>
      let s := jsTrim s0
      if s = "" then []
      else
        let viaArr : Option (List String) :=
          if jsStartsWith s "[" then
            match jsonParse s with
            | some (JVal.arr xs) =>
                some (((itemsToList xs).filter (fun x => !isNull x)).map (fun x =>
                  match x with
                  | JVal.str t => t
                  | v => jsonSerialize v))
            | _ => none
          else none
        match viaArr with
        | some ls => ls
        | none => ((splitLinesCR s).map jsTrim).filter (fun l => l != "")
  | JVal.arr xs => toJsonlLinesSeq ((itemsToList xs).map some)
  | JVal.obj kvs => [jsonSerialize (JVal.obj kvs)]
  | _ => []

/-- The whole-body JSON-array attempt of the response parser: on a
`[`-initial trimmed body, the parsed elements, else the empty list
(parse failures are swallowed by the source's empty `catch`). -/
def arrayResults (trimmed : String) : List JVal :=
  if jsStartsWith trimmed "[" then
    match jsonParse trimmed with
    | some (JVal.arr xs) => itemsToList xs
    | _ => []
  else []

/-- Per-line response parsing: a line that fails `JSON.parse` degrades to
`\x7b status: "error", raw: <line> \x7d`. -/
def parseResponseLine (l : String) : JVal :=
  match jsonParse l with
  | some v => v
  | none => jobj [("status", JVal.str "error"), ("raw", JVal.str l)]

/-- The response-body parser of `doBulkCreate`: try the whole body as a
JSON array; if that yields no elements and the body is non-blank, split
on `"\n"`, drop empty lines, and parse each line independently. -/
def parseBody (raw : String) : List JVal :=
  let trimmed := jsTrim raw
  let first := arrayResults trimmed
  if first.isEmpty ∧ trimmed ≠ "" then
    ((jsSplitOn trimmed "\n").filter (fun l => l != "")).map parseResponseLine
  else first

/-- Success classification of one response entry:
`r && r.status === "success" && r.id` — truthy entry whose `status`
field is the string `"success"` and whose `id` field is truthy. -/
def isSuccessEntry (r : JVal) : Bool :=
  truthy r &&
    (match getField r "status" with
     | some (JVal.str s) => s = "success"
     | _ => false) &&
    (match getField r "id" with
     | some v => truthy v
     | none => false)

/-- `String(s.id)` for a success entry. -/
def successIdString (r : JVal) : String :=
  jsToString ((getField r "id").getD JVal.null)

/-- `created_ids`: the stringified ids of the successes, in order. -/
def successIdsOf (results : List JVal) : List String :=
  ((results.filter isSuccessEntry).map successIdString)

/-- `Object.entries(obj || {})`: members of an object, index/character
pairs of a string, index/element pairs of an array, nothing otherwise
(`null` is replaced by `\x7b\x7d` by the `|| \x7b\x7d` guard). -/
def jsEntries : JVal → List (String × JVal)
  | JVal.obj kvs => memsToList kvs
  | JVal.arr xs => (itemsToList xs).enum.map (fun p => (natToString p.1, p.2))
  | JVal.str s => s.toList.enum.map (fun p => (natToString p.1, JVal.str (String.singleton p.2)))
  | _ => []

/-- One `created_data` entry: every key of the response entry re-keyed
with the `_p_` prefix, values unchanged.  (`Object.entries` of a JS
object never repeats a key, so the assignment loop is a plain map.) -/
def createdEntry (o : JVal) : List (String × JVal) :=
  (jsEntries o).map (fun kv => ("_p_" ++ kv.1, kv.2))

/-- `created_data`: one re-keyed object per response entry, in order. -/
def createdDataOf (results : List JVal) : List (List (String × JVal)) :=
  results.map createdEntry

/-- The paginated Bubble list input `properties.ndjson_list`, abstracted
by its observable behaviour in the action.  `missing` covers a falsy
source and a truthy source without a `length` function (both skipped);
`ok` a source whose `length()`/`get(0, len)` resolve to the given
elements; `throws` a source whose `await` (of the source itself, of
`length()` or of `get`) rejects with the given message. -/
inductive ListSource where
  | missing : ListSource
  | ok : List SeqItem → ListSource
  | throws : String → ListSource

/-- The invocation inputs.  Text-typed plugin fields (`key_delimiter`,
`version`, `object_type_text`, `apiToken`) are optional strings; the
loosely-typed fields are optional JSON values (`none` = `undefined`). -/
structure Props where
  key_delimiter : Option String
  version : Option String
  object_type_text : Option String
  apiToken : Option String
  keys_or_raw : Option JVal
  max_count : Option JVal
  json_keys : Option JVal
  json_keys_persistent : Option JVal
  ndjson_list : ListSource
  ndjson : Option JVal
  items : Option JVal
  object_type : Option JVal

/-- `context.keys`. -/
structure Ctx where
  appID : Option String
  appAPIKey : Option String

/-- Truthiness of an optional string (`undefined` and `""` are falsy). -/
def truthyS : Option String → Bool
  | none => false
  | some s => s != ""

/-- `o || d` for a text field. -/
def orElseStr (o : Option String) (d : String) : String :=
  match o with
  | some s => if s = "" then d else s
  | none => d

/-- `usingKeys`: `(properties.keys_or_raw ?? "").toString().toLowerCase()
=== "keys"`. -/
def usingKeysOf (o : Option JVal) : Bool :=
jsToLower (jsToString (o.getD (JVal.str ""))) = "keys"

/-- `MAX_COUNT`: `Number(properties.max_count) > 0 ?
Number(properties.max_count) : 25`. -/
def maxCountOf (p : Props) : Int :=
  match jsToNumber0 p.max_count with
  | some n => if n > 0 then n else 25
  | none => 25

/-- `valueDelimiter = properties.key_delimiter || ","`. -/
def delimOf (p : Props) : String :=
  orElseStr p.key_delimiter ","

/-- `keyPairs = properties.json_keys || []`. -/
def keyPairsOf (p : Props) : JVal :=
  match p.json_keys with
  | some v => if truthy v then v else JVal.arr JItems.nil
  | none => JVal.arr JItems.nil

/-- `persistentKeyPairs = properties.json_keys_persistent || []`. -/
def persistentPairsOf (p : Props) : JVal :=
  match p.json_keys_persistent with
  | some v => if truthy v then v else JVal.arr JItems.nil
  | none => JVal.arr JItems.nil

/-- `apiToken = properties.apiToken || context.keys.appAPIKey`. -/
def apiTokenOf (p : Props) (c : Ctx) : Option String :=
  if truthyS p.apiToken then p.apiToken else c.appAPIKey

/-- Interpolation `${x}` of a text field (`undefined` interpolates as
the string `"undefined"`). -/
def tmplS (o : Option String) : String :=
  o.getD "undefined"

/-- The request URL. -/
def urlOf (p : Props) (c : Ctx) : String :=
  "https://" ++ tmplS c.appID ++ ".bubbleapps.io/version-" ++
    orElseStr p.version "test" ++ "/api/1.1/obj/" ++
    tmplS p.object_type_text ++ "/bulk"

/-- `requested_count`: non-blank lines of the NDJSON body. -/
def requestedCountOf (body : String) : Nat :=
  ((splitLinesCR body).filter (fun l => l != "" && jsTrim l != "")).length

/-- The Keys-mode over-limit message, naming actual and maximum counts. -/
def tooManyKeysMsg (count : Nat) (maxCount : Int) : String :=
  "Too many rows from key lists: " ++ natToString count ++ ". Max allowed is " ++
    intToString maxCount ++ "."

/-- The JSONL-mode over-limit message, naming actual and maximum counts. -/
def tooManyNdjsonMsg (count : Nat) (maxCount : Int) : String :=
  "Too many NDJSON rows: " ++ natToString count ++ ". Max allowed is " ++
    intToString maxCount ++ "."

/-- The Keys-mode bad-input message. -/
def jsonKeysMsg : String :=
  "json_keys must be a non-empty array of \x7bkey, value\x7d in Keys mode."

/-- The Keys-mode zero-row message. -/
def noRowsMsg : String :=
  "No rows could be formed from the provided key/value lists."

/-- The JSONL-mode empty-body message. -/
def emptyNdjsonMsg : String :=
  let q := String.singleton (Char.ofNat 39)
  "NDJSON body is empty. Provide " ++ q ++ "ndjson" ++ q ++
    " (text/array), " ++ q ++ "items" ++ q ++ " (text/array), or " ++ q ++
    "ndjson_list" ++ q ++ " (list of text/objects)."

/-- Lines contributed by the paginated list source in JSONL mode. -/
def listSourceLines (p : Props) : List String :=
  match p.ndjson_list with
  | ListSource.ok elems => toJsonlLinesSeq elems
  | _ => []

/-- Lines contributed by `properties.ndjson` (skipped when `undefined`
or `null`). -/
def ndjsonInputLines (p : Props) : List String :=
  match p.ndjson with
  | some v => if isNull v then [] else toJsonlLines v
  | none => []

/-- Lines contributed by `properties.items` (skipped when `undefined`
or `null`). -/
def itemsInputLines (p : Props) : List String :=
  match p.items with
  | some v => if isNull v then [] else toJsonlLines v
  | none => []

/-- The final JSONL-mode line list:
`lines.map(l => l.trim()).filter(Boolean)` over the concatenated
sources. -/
def jsonlLinesOf (p : Props) : List String :=
  ((listSourceLines p ++ ndjsonInputLines p ++ itemsInputLines p).map
    jsTrim).filter (fun l => l != "")

/-- What the invocation has decided before any network activity:
a structured validation error, an escaped exception, or a dispatched
request (url, NDJSON body, requested count). -/
inductive PreOutcome where
  | err : String → PreOutcome
  | thrown : String → PreOutcome
  | dispatch : String → String → Nat → PreOutcome

/-- The common tail of both modes: the `thingType`/`apiToken` checks,
then the single dispatch. -/
def afterBody (p : Props) (c : Ctx) (body : String) : PreOutcome :=
  if ¬ truthyS p.object_type_text then PreOutcome.err "thingType is required."
  else if ¬ truthyS (apiTokenOf p c) then PreOutcome.err "Missing Bubble API token."
  else PreOutcome.dispatch (urlOf p c) body (requestedCountOf body)

/-- The Keys-mode branch of the action body. -/
def keysBranch (p : Props) (c : Ctx) : PreOutcome :=
  match keyPairsOf p with
  | JVal.arr JItems.nil => PreOutcome.err jsonKeysMsg
  | JVal.arr (JItems.cons q qs) =>
      if (buildJsonlFromKeyLists (JVal.arr (JItems.cons q qs)) (delimOf p)
            (persistentPairsOf p)).2 = 0 then
        PreOutcome.err noRowsMsg
      else if ((buildJsonlFromKeyLists (JVal.arr (JItems.cons q qs)) (delimOf p)
            (persistentPairsOf p)).2 : Int) > maxCountOf p then
        PreOutcome.err
          (tooManyKeysMsg
            (buildJsonlFromKeyLists (JVal.arr (JItems.cons q qs)) (delimOf p)
              (persistentPairsOf p)).2 (maxCountOf p))
      else
        afterBody p c
          (joinWith "\n"
            (buildJsonlFromKeyLists (JVal.arr (JItems.cons q qs)) (delimOf p)
              (persistentPairsOf p)).1)
  | _ => PreOutcome.err jsonKeysMsg

/-- The JSONL-mode branch of the action body.  The unguarded `await`s on
`properties.ndjson_list` are the one place an exception escapes. -/
def jsonlBranch (p : Props) (c : Ctx) : PreOutcome :=
  match p.ndjson_list with
  | ListSource.throws m => PreOutcome.thrown m
  | _ =>
      if (jsonlLinesOf p).isEmpty then PreOutcome.err emptyNdjsonMsg
      else if ((jsonlLinesOf p).length : Int) > maxCountOf p then
        PreOutcome.err (tooManyNdjsonMsg (jsonlLinesOf p).length (maxCountOf p))
      else afterBody p c (joinWith "\n" (jsonlLinesOf p))

/-- Everything the invocation does up to (and excluding) the HTTP call. -/
def preOutcome (p : Props) (c : Ctx) : PreOutcome :=
  if usingKeysOf p.keys_or_raw then keysBranch p c else jsonlBranch p c

/-- The HTTP transport's behaviour for the one dispatched request:
a 2xx text body, or a failure whose extracted text (response body or
error message) is given. -/
inductive Transport where
  | ok : String → Transport
  | fail : String → Transport

/-- The invocation's resolved value.  `failure` carries
`returned_error: true` with only an error message (the early validation
returns); `failureEcho` additionally echoes `object_type` (the `.catch`
path); `success` carries `returned_error: false` with the reconciled
fields (`created_data_id` repeats `created_ids` in the source); `thrown`
is an exception escaping the invocation. -/
inductive InvocationResult where
  | failure : String → InvocationResult
  | failureEcho : String → Option JVal → InvocationResult
  | success : Nat → Nat → List String → List (List (String × JVal)) →
      Option JVal → InvocationResult
  | thrown : String → InvocationResult

/-- The whole invocation against a given transport behaviour. -/
def runInvocation (p : Props) (c : Ctx) (t : Transport) : InvocationResult :=
  match preOutcome p c with
  | PreOutcome.err m => InvocationResult.failure m
  | PreOutcome.thrown m => InvocationResult.thrown m
  | PreOutcome.dispatch _ _ n =>
      match t with
      | Transport.fail b =>
          InvocationResult.failureEcho ("Bubble bulk create failed: " ++ b)
            p.object_type
      | Transport.ok raw =>
          let results := parseBody raw
          InvocationResult.success n (results.filter isSuccessEntry).length
            (successIdsOf results) (createdDataOf results) p.object_type

/-- A resolved invocation value that is one of the structured output
shapes (not an escaped exception). -/
def isStructuredResult : InvocationResult → Prop
  | InvocationResult.thrown _ => False
  | _ => True

/-- A sample `context.keys`. -/
def ctxSample : Ctx :=
  ⟨some "myapp", some "apikey"⟩

/-- Keys-mode invocation with one column of 26 values against the
default maximum of 25. -/
def keysOverLimitProps : Props :=
  ⟨none, none, some "order", some "tok", some (JVal.str "Keys"), none,
    some (jarr [jobj [("key", JVal.str "k"),
      ("value", JVal.str
        "1,2,3,4,5,6,7,8,9,10,11,12,13,14,15,16,17,18,19,20,21,22,23,24,25,26")]]),
    none, ListSource.missing, none, none, none⟩

/-- JSONL-mode invocation whose paginated list source rejects. -/
def listThrowProps : Props :=
  ⟨none, none, some "order", some "tok", none, none, none, none,
    ListSource.throws "boom", none, none, some (JVal.str "order")⟩

/-- JSONL-mode invocation with a well-behaved text source. -/
def jsonlSafeProps : Props :=
  ⟨none, none, some "order", some "tok", none, none, none, none,
    ListSource.missing, some (JVal.str "\x7b\"a\":1\x7d"), none,
    some (JVal.str "order")⟩

/-- Column input of the duplicate-persistent-key example: one column
`c = "x"`. -/
def dupPersistPairs : JVal :=
  jarr [jobj [("key", JVal.str "c"), ("value", JVal.str "x")]]

/-- Persistent input of the duplicate-persistent-key example: two
persistent fields with the same key `s` and first tokens `a`, `b`. -/
def dupPersistFields : JVal :=
  jarr [jobj [("key", JVal.str "s"), ("value", JVal.str "a")],
    jobj [("key", JVal.str "s"), ("value", JVal.str "b")]]

/-- Keys-mode example of the row-matrix claim: `name = x,y,z` and
`age = 1,2`. -/
def rowMatrixPairs : JVal :=
  jarr [jobj [("key", JVal.str "name"), ("value", JVal.str "x,y,z")],
    jobj [("key", JVal.str "age"), ("value", JVal.str "1,2")]]

/-- Property read on a string-valued row object (the value found at the
first matching key, `undefined` when absent). -/
def lookupStr : List (String × String) → String → Option String
  | [], _ => none
  | kv :: t, k => if kv.1 = k then some kv.2 else lookupStr t k

/-- `(l.filter p).map f` rewritten as a single `filterMap`. -/
theorem filter_then_map_eq_filterMap {α β : Type} (p : α → Bool) (f : α → β)
    (l : List α) :
    (l.filter p).map f = l.filterMap (fun a => if p a then some (f a) else none) := by
  induction l with
  | nil => rfl
  | cons x xs ih =>
      by_cases h : p x <;> simp [List.filter_cons, List.filterMap_cons, h, ih]

/-- C4: for every raw input whose trimmed string form starts with `[`
and parses as a JSON array, `splitValueList` returns the array elements
stringified by `toStr` (a `null` element giving `""`) with outer
matching quotes stripped (a parsed empty array giving the single
empty-string token), and the result ignores the configured delimiter
entirely. -/
theorem claim_c4_json_array_path (raw : Option JVal) (d1 d2 : String) (ts : JItems)
    (hstart : jsStartsWith (jsTrim (toStr0 raw)) "[" = true)
    (hparse : jsonParse (jsTrim (toStr0 raw)) = some (JVal.arr ts)) :
    splitValueList raw d1 =
      (if (itemsToList ts).isEmpty then [""]
       else (itemsToList ts).map (fun x => stripOuterQuotes (toStr0 (some x)))) ∧
    splitValueList raw d1 = splitValueList raw d2 := by
  have hs : jsTrim (toStr0 raw) ≠ "" := by
    intro h
    rw [h] at hstart
    exact absurd hstart (by decide)
  have harr : ∀ d : String, splitValueList raw d =
      (if (itemsToList ts).isEmpty then [""]
       else (itemsToList ts).map (fun x => stripOuterQuotes (toStr0 (some x)))) := by
    intro d
    simp only [splitValueList, jsonArrayTokens, hstart, if_true, hparse, if_neg hs]
    cases h : itemsToList ts <;> simp [h]
  exact ⟨harr d1, (harr d1).trans (harr d2).symm⟩

/-- C4 witness: tokenizing the string `["a","b,c"]` with delimiter `|`
yields `["a", "b,c"]`, the same as with the comma delimiter — the JSON
array path wins over delimiter splitting. -/
theorem claim_c4_witness :
    splitValueList (some (JVal.str "[\"a\",\"b,c\"]")) "|" = ["a", "b,c"] ∧
    splitValueList (some (JVal.str "[\"a\",\"b,c\"]")) "|" =
      splitValueList (some (JVal.str "[\"a\",\"b,c\"]")) "," := by
  have h := claim_c4_json_array_path (some (JVal.str "[\"a\",\"b,c\"]")) "|" ","
    (listToItems [JVal.str "a", JVal.str "b,c"]) (by decide) (by rfl)
  exact ⟨h.1.trans (by rfl), h.2⟩

/-- C5: for a non-empty trimmed input that does not take the JSON-array
path, `splitValueList` splits on the configured delimiter taken
literally; when that split finds no delimiter (a single part), it falls
back to a comma split; each token is quote-stripped and trimmed. -/
theorem claim_c5_delimiter_fallback (raw : Option JVal) (d : String)
    (hne : jsTrim (toStr0 raw) ≠ "")
    (hnoarr : jsonArrayTokens (jsTrim (toStr0 raw)) = none) :
    ((jsSplitOn (jsTrim (toStr0 raw)) (if d = "" then "," else d)).length > 1 →
      splitValueList raw d =
        (jsSplitOn (jsTrim (toStr0 raw)) (if d = "" then "," else d)).map cleanToken) ∧
    ((jsSplitOn (jsTrim (toStr0 raw)) (if d = "" then "," else d)).length ≤ 1 →
      splitValueList raw d = (jsSplitOn (jsTrim (toStr0 raw)) ",").map cleanToken) := by
  simp only [splitValueList, if_neg hne, hnoarr]
  constructor
  · intro h
    simp only [if_pos h]
  · intro h
    have h2 : ¬ (jsSplitOn (jsTrim (toStr0 raw)) (if d = "" then "," else d)).length > 1 := by
      omega
    simp only [if_neg h2]

/-- C5 witness: tokenizing `a,b,c` with the delimiter `|` (absent from
the input) falls back to the comma split and yields `["a", "b", "c"]`,
the same as with the default comma delimiter. -/
theorem claim_c5_witness :
    splitValueList (some (JVal.str "a,b,c")) "|" = ["a", "b", "c"] ∧
    splitValueList (some (JVal.str "a,b,c")) "|" =
      splitValueList (some (JVal.str "a,b,c")) "," := by
  have h := claim_c5_delimiter_fallback (some (JVal.str "a,b,c")) "|"
    (by decide) (by rfl)
  have h1 : splitValueList (some (JVal.str "a,b,c")) "|" = ["a", "b", "c"] :=
    (h.2 (by decide)).trans (by rfl)
  exact ⟨h1, h1.trans (by rfl)⟩

/-- C9: the sequence branch of the JSONL normalizer maps every surviving
element to exactly one line in order — strings trimmed and used
verbatim, other values JSON-serialized — dropping `undefined`, `null`,
and elements whose string form trims to empty; in particular
`["  ", \x7b"a":1\x7d, "raw"]` yields `["\x7b\"a\":1\x7d", "raw"]`. -/
theorem claim_c9_sequence_lines (xs : List SeqItem) :
    toJsonlLinesSeq xs = xs.filterMap (fun x =>
      match x with
      | none => none
      | some v =>
          if isNull v then none
          else if jsTrim (jsToString v) = "" then none
          else some (match v with | JVal.str s => jsTrim s | w => jsonSerialize w)) ∧
    toJsonlLinesSeq [some (JVal.str "  "), some (jobj [("a", JVal.num 1)]),
      some (JVal.str "raw")] = ["\x7b\"a\":1\x7d", "raw"] := by
  constructor
  · rw [toJsonlLinesSeq, filter_then_map_eq_filterMap]
    have hfun : ∀ a : SeqItem,
        (if keepSeqItem a then some (renderSeqItem a) else none) =
        (match a with
         | none => none
         | some v =>
             if isNull v then none
             else if jsTrim (jsToString v) = "" then none
             else some (match v with | JVal.str s => jsTrim s | w => jsonSerialize w)) := by
      intro a
      match a with
      | none => rfl
      | some v =>
          cases v <;> simp [keepSeqItem, renderSeqItem, isNull]
    exact List.filterMap_congr fun a _ => hfun a
  · rfl

/-- C10: the action runs in Keys mode exactly when the lowercased string
form of the mode selector is `"keys"`; any other value — including an
absent selector — selects JSONL mode (the `jsonlBranch` of the body). -/
theorem claim_c10_mode_selection :
    usingKeysOf none = false ∧
    (∀ v : JVal, jsToLower (jsToString v) ≠ "keys" → usingKeysOf (some v) = false) ∧
    (∀ v : JVal, usingKeysOf (some v) = true ↔ jsToLower (jsToString v) = "keys") ∧
    usingKeysOf (some (JVal.str "Keys")) = true ∧
    usingKeysOf (some (JVal.str "KEYS")) = true ∧
    usingKeysOf (some (JVal.str " keys")) = false ∧
    usingKeysOf (some (JVal.str "JSONL")) = false ∧
    (∀ (p : Props) (c : Ctx), usingKeysOf p.keys_or_raw = false →
      preOutcome p c = jsonlBranch p c) := by
  refine ⟨by decide, ?_, ?_, by decide, by decide, by decide, by decide, ?_⟩
  · intro v h
    simp [usingKeysOf, h]
  · intro v
    simp [usingKeysOf]
  · intro p c h
    simp [preOutcome, h]

/-- C10 witness: the selector `"JSONL"` (and the absent selector) run
the JSONL branch. -/
theorem claim_c10_witness :
    usingKeysOf (some (JVal.str "JSONL")) = false ∧
    preOutcome jsonlSafeProps ctxSample = jsonlBranch jsonlSafeProps ctxSample := by
  exact ⟨claim_c10_mode_selection.2.1 (JVal.str "JSONL") (by decide),
    claim_c10_mode_selection.2.2.2.2.2.2.2 jsonlSafeProps ctxSample (by decide)⟩

/-- C8: when the whole-body array attempt yields nothing and the body is
non-blank, the response is parsed line by line: one result per non-empty
line in line order, a line that fails to parse degrading to
`\x7bstatus: "error", raw: <line>\x7d` while every other line is still
parsed independently of earlier failures. -/
theorem claim_c8_line_parse_tolerance (raw : String)
    (hne : jsTrim raw ≠ "")
    (harr : arrayResults (jsTrim raw) = []) :
    parseBody raw =
      ((jsSplitOn (jsTrim raw) "\n").filter (fun l => l != "")).map parseResponseLine ∧
    (∀ l, jsonParse l = none →
      parseResponseLine l = jobj [("status", JVal.str "error"), ("raw", JVal.str l)]) ∧
    (∀ l v, jsonParse l = some v → parseResponseLine l = v) ∧
    (parseBody raw).length =
      ((jsSplitOn (jsTrim raw) "\n").filter (fun l => l != "")).length ∧
    (∀ i : Nat, (parseBody raw)[i]? =
      ((jsSplitOn (jsTrim raw) "\n").filter (fun l => l != ""))[i]?.map
        parseResponseLine) := by
  have h1 : parseBody raw =
      ((jsSplitOn (jsTrim raw) "\n").filter (fun l => l != "")).map parseResponseLine := by
    simp only [parseBody, harr]
    rw [if_pos ⟨rfl, hne⟩]
  refine ⟨h1, ?_, ?_, ?_, ?_⟩
  · intro l h
    simp [parseResponseLine, h]
  · intro l v h
    simp [parseResponseLine, h]
  · rw [h1, List.length_map]
  · intro i
    rw [h1, List.getElem?_map]

/-- C8 witness: a three-line body whose middle line is not JSON parses
to three results in order, the middle one degraded. -/
theorem claim_c8_witness :
    parseBody "\x7b\"a\":1\x7d\nnot json\n\x7b\"b\":2\x7d" =
      [jobj [("a", JVal.num 1)],
       jobj [("status", JVal.str "error"), ("raw", JVal.str "not json")],
       jobj [("b", JVal.num 2)]] ∧
    jsonParse "not json" = none := by
  have h := claim_c8_line_parse_tolerance "\x7b\"a\":1\x7d\nnot json\n\x7b\"b\":2\x7d"
    (by decide) (by rfl)
  exact ⟨h.1.trans (by rfl), by rfl⟩

/-- C2: a response entry is a success exactly when its `status` field is
the string `"success"` and its `id` field is truthy; `created_count`
counts those entries, `created_ids` is their stringified ids in response
order, and `created_data` holds one object per response entry (success
or not, in entry order) with every key prefixed `_p_` and values
unchanged; in particular the body
`[\x7b"status":"success","id":"1"\x7d,\x7b"status":"error"\x7d]`
reconciles to one success with id `"1"` and two prefixed data entries. -/
theorem claim_c2_reconciliation :
    (∀ r : JVal, isSuccessEntry r = true ↔
      (getField r "status" = some (JVal.str "success") ∧
       ∃ v, getField r "id" = some v ∧ truthy v = true)) ∧
    (∀ results : List JVal,
      (results.filter isSuccessEntry).length = results.countP isSuccessEntry) ∧
    (∀ results : List JVal, successIdsOf results =
      results.filterMap
        (fun r => if isSuccessEntry r then some (successIdString r) else none)) ∧
    (∀ results : List JVal, (createdDataOf results).length = results.length) ∧
    (∀ (results : List JVal) (i : Nat), (createdDataOf results)[i]? =
      (results[i]?).map (fun r => (jsEntries r).map (fun kv => ("_p_" ++ kv.1, kv.2)))) ∧
    parseBody "[\x7b\"status\":\"success\",\"id\":\"1\"\x7d,\x7b\"status\":\"error\"\x7d]" =
      [jobj [("status", JVal.str "success"), ("id", JVal.str "1")],
       jobj [("status", JVal.str "error")]] ∧
    ((parseBody "[\x7b\"status\":\"success\",\"id\":\"1\"\x7d,\x7b\"status\":\"error\"\x7d]").filter
      isSuccessEntry).length = 1 ∧
    successIdsOf
      (parseBody "[\x7b\"status\":\"success\",\"id\":\"1\"\x7d,\x7b\"status\":\"error\"\x7d]") =
      ["1"] ∧
    createdDataOf
      (parseBody "[\x7b\"status\":\"success\",\"id\":\"1\"\x7d,\x7b\"status\":\"error\"\x7d]") =
      [[("_p_status", JVal.str "success"), ("_p_id", JVal.str "1")],
       [("_p_status", JVal.str "error")]] := by
  refine ⟨?_, ?_, ?_, ?_, ?_, by rfl, by rfl, by rfl, by rfl⟩
  · intro r
    cases r with
    | null => simp [isSuccessEntry, getField]
    | bool b => simp [isSuccessEntry, getField]
    | num n => simp [isSuccessEntry, getField]
    | str s => simp [isSuccessEntry, getField]
    | arr xs => simp [isSuccessEntry, getField]
    | obj kvs =>
        simp only [isSuccessEntry, truthy, getField, Bool.true_and, Bool.and_eq_true]
        cases hst : (memsToList kvs).lookup "status" with
        | none => simp
        | some w =>
            cases w
            case str s =>
              cases hid : (memsToList kvs).lookup "id" <;> simp_all
            all_goals simp_all
  · intro results
    exact (List.countP_eq_length_filter isSuccessEntry results).symm
  · intro results
    exact filter_then_map_eq_filterMap isSuccessEntry successIdString results
  · intro results
    exact List.length_map results createdEntry
  · intro results i
    exact List.getElem?_map createdEntry results i

/-- The resolved maximum row count is always at least 1 (a non-positive
or unparseable override falls back to 25). -/
theorem maxCountOf_pos (p : Props) : 1 ≤ maxCountOf p := by
  unfold maxCountOf
  cases jsToNumber0 p.max_count with
  | none => norm_num
  | some n =>
      by_cases h : n > 0
      · simp only [h, if_true]; omega
      · simp only [h, if_false]; norm_num

/-- C1: the maximum row count resolves to the override exactly when the
override converts to a positive number and to the default 25 otherwise
(including NaN); in either mode, a derived row count above the resolved
maximum makes the invocation return the validation error naming the
actual and maximum counts, before any request is dispatched. -/
theorem claim_c1_max_count (p : Props) (c : Ctx) :
    (∀ n : Int, jsToNumber0 p.max_count = some n → 0 < n → maxCountOf p = n) ∧
    (∀ n : Int, jsToNumber0 p.max_count = some n → ¬ 0 < n → maxCountOf p = 25) ∧
    (jsToNumber0 p.max_count = none → maxCountOf p = 25) ∧
    (usingKeysOf p.keys_or_raw = true →
      ∀ q qs, keyPairsOf p = JVal.arr (JItems.cons q qs) →
      ((buildJsonlFromKeyLists (JVal.arr (JItems.cons q qs)) (delimOf p)
          (persistentPairsOf p)).2 : Int) > maxCountOf p →
      preOutcome p c = PreOutcome.err
        (tooManyKeysMsg
          (buildJsonlFromKeyLists (JVal.arr (JItems.cons q qs)) (delimOf p)
            (persistentPairsOf p)).2 (maxCountOf p)) ∧
      ∀ u b k, preOutcome p c ≠ PreOutcome.dispatch u b k) ∧
    (usingKeysOf p.keys_or_raw = false →
      (∀ m, p.ndjson_list ≠ ListSource.throws m) →
      ((jsonlLinesOf p).length : Int) > maxCountOf p →
      preOutcome p c = PreOutcome.err
        (tooManyNdjsonMsg (jsonlLinesOf p).length (maxCountOf p)) ∧
      ∀ u b k, preOutcome p c ≠ PreOutcome.dispatch u b k) := by
  refine ⟨?_, ?_, ?_, ?_, ?_⟩
  · intro n hn hpos
    simp [maxCountOf, hn, hpos]
  · intro n hn hpos
    simp [maxCountOf, hn, hpos]
  · intro hn
    simp [maxCountOf, hn]
  · intro husing q qs hkp hover
    have hcount0 :
        (buildJsonlFromKeyLists (JVal.arr (JItems.cons q qs)) (delimOf p)
          (persistentPairsOf p)).2 ≠ 0 := by
      intro h0
      rw [h0] at hover
      have := maxCountOf_pos p
      omega
    have heq : preOutcome p c = PreOutcome.err
        (tooManyKeysMsg
          (buildJsonlFromKeyLists (JVal.arr (JItems.cons q qs)) (delimOf p)
            (persistentPairsOf p)).2 (maxCountOf p)) := by
      simp only [preOutcome, husing, if_true, keysBranch, hkp]
      rw [if_neg hcount0, if_pos hover]
    exact ⟨heq, fun u b k hd => by rw [heq] at hd; exact PreOutcome.noConfusion hd⟩
  · intro husing hthrow hover
    have hne : ¬ (jsonlLinesOf p).isEmpty = true := by
      intro h0
      rw [List.isEmpty_iff] at h0
      rw [h0] at hover
      have := maxCountOf_pos p
      simp at hover
      omega
    have heq : preOutcome p c = PreOutcome.err
        (tooManyNdjsonMsg (jsonlLinesOf p).length (maxCountOf p)) := by
      simp only [preOutcome, husing, Bool.false_eq_true, if_false, jsonlBranch]
      cases hsrc : p.ndjson_list with
      | throws m => exact absurd hsrc (hthrow m)
      | missing => rw [if_neg hne, if_pos hover]
      | ok es => rw [if_neg hne, if_pos hover]
    exact ⟨heq, fun u b k hd => by rw [heq] at hd; exact PreOutcome.noConfusion hd⟩

/-- C1 witness: one key column with 26 comma-separated values against
the default maximum 25 yields the validation error naming 26 and 25 and
never reaches a dispatch. -/
theorem claim_c1_witness :
    preOutcome keysOverLimitProps ctxSample =
      PreOutcome.err "Too many rows from key lists: 26. Max allowed is 25." ∧
    maxCountOf keysOverLimitProps = 25 := by
  have h := claim_c1_max_count keysOverLimitProps ctxSample
  have h4 := h.2.2.2.1 (by decide)
    (jobj [("key", JVal.str "k"),
      ("value", JVal.str
        "1,2,3,4,5,6,7,8,9,10,11,12,13,14,15,16,17,18,19,20,21,22,23,24,25,26")])
    JItems.nil (by rfl) (by decide)
  exact ⟨h4.1.trans (by rfl), h.2.2.1 (by rfl)⟩

/-- The common validation/dispatch tail never throws. -/
theorem afterBody_ne_thrown (p : Props) (c : Ctx) (b m : String) :
    afterBody p c b ≠ PreOutcome.thrown m := by
  intro h
  unfold afterBody at h
  split at h
  · exact PreOutcome.noConfusion h
  · split at h
    · exact PreOutcome.noConfusion h
    · exact PreOutcome.noConfusion h

/-- The Keys-mode branch never throws. -/
theorem keysBranch_ne_thrown (p : Props) (c : Ctx) (m : String) :
    keysBranch p c ≠ PreOutcome.thrown m := by
  intro h
  unfold keysBranch at h
  split at h
  · exact PreOutcome.noConfusion h
  · split at h
    · exact PreOutcome.noConfusion h
    · split at h
      · exact PreOutcome.noConfusion h
      · exact afterBody_ne_thrown p c _ m h
  · exact PreOutcome.noConfusion h

/-- The JSONL-mode tail (after the list-source awaits) never throws. -/
theorem jsonlTail_ne_thrown (p : Props) (c : Ctx) (m : String) :
    (if (jsonlLinesOf p).isEmpty then PreOutcome.err emptyNdjsonMsg
     else if ((jsonlLinesOf p).length : Int) > maxCountOf p then
       PreOutcome.err (tooManyNdjsonMsg (jsonlLinesOf p).length (maxCountOf p))
     else afterBody p c (joinWith "\n" (jsonlLinesOf p))) ≠
      PreOutcome.thrown m := by
  intro h
  split at h
  · exact PreOutcome.noConfusion h
  · split at h
    · exact PreOutcome.noConfusion h
    · exact afterBody_ne_thrown p c _ m h

/-- The only escaped exception of the body is a rejection of the
paginated `ndjson_list` source. -/
theorem preOutcome_thrown (p : Props) (c : Ctx) (m : String)
    (h : preOutcome p c = PreOutcome.thrown m) :
    p.ndjson_list = ListSource.throws m := by
  unfold preOutcome at h
  by_cases husing : usingKeysOf p.keys_or_raw
  · rw [if_pos husing] at h
    exact absurd h (keysBranch_ne_thrown p c m)
  · rw [if_neg husing] at h
    unfold jsonlBranch at h
    cases hsrc : p.ndjson_list with
    | throws m2 =>
        rw [hsrc] at h
        have h2 : PreOutcome.thrown m2 = PreOutcome.thrown m := h
        injection h2 with hm
        rw [hm]
    | missing =>
        exfalso
        rw [hsrc] at h
        exact jsonlTail_ne_thrown p c m h
    | ok es =>
        exfalso
        rw [hsrc] at h
        exact jsonlTail_ne_thrown p c m h

/-- C3 counterexample: a JSONL-mode invocation whose `ndjson_list`
source rejects makes the whole invocation reject (`thrown`), not
resolve to the structured failure output — the awaits on
`properties.ndjson_list` are outside every `try`/`catch`. -/
theorem claim_c3_counterexample :
    runInvocation listThrowProps ctxSample (Transport.ok "") =
      InvocationResult.thrown "boom" ∧
    ¬ isStructuredResult (runInvocation listThrowProps ctxSample (Transport.ok "")) := by
  exact ⟨rfl, fun h => h⟩

/-- C3 amended: whenever the paginated `ndjson_list` source does not
reject, no error escapes the invocation — every other failure resolves
to a structured failure output (and a transport failure resolves to the
`.catch` shape). -/
theorem claim_c3_structured_failures (p : Props) (c : Ctx) (t : Transport)
    (h : ∀ m, p.ndjson_list ≠ ListSource.throws m) :
    isStructuredResult (runInvocation p c t) := by
  unfold runInvocation
  cases hpre : preOutcome p c with
  | err m => trivial
  | thrown m => exact absurd (preOutcome_thrown p c m hpre) (h m)
  | dispatch u b n => cases t <;> trivial

/-- C3 amended witness: a JSONL invocation with a plain text source and
no paginated list resolves structurally. -/
theorem claim_c3_witness :
    isStructuredResult (runInvocation jsonlSafeProps ctxSample (Transport.ok "[]")) := by
  exact claim_c3_structured_failures jsonlSafeProps ctxSample (Transport.ok "[]")
    (fun m hm => ListSource.noConfusion hm)

/-- Updating the value at key `k` in place does not affect lookups of
other keys. -/
theorem lookupStr_mapUpdate_ne (m : List (String × String)) (k v k2 : String)
    (hne : k2 ≠ k) :
    lookupStr (m.map (fun kv => if kv.1 = k then (k, v) else kv)) k2 =
      lookupStr m k2 := by
  induction m with
  | nil => rfl
  | cons hd tl ih =>
      by_cases hh : hd.1 = k
      · have hhd : (if hd.1 = k then (k, v) else hd) = (k, v) := if_pos hh
        have hkk2 : ¬ k = k2 := fun h => hne h.symm
        simp only [List.map_cons, hhd, lookupStr]
        have h2 : ¬ hd.1 = k2 := fun h => hkk2 (hh.symm.trans h)
        simp [hkk2, h2, ih]
      · have hhd : (if hd.1 = k then (k, v) else hd) = hd := if_neg hh
        simp only [List.map_cons, hhd, lookupStr]
        by_cases h2 : hd.1 = k2
        · simp [h2]
        · simp [h2, ih]

/-- Appending a binding for key `k` does not affect lookups of other
keys. -/
theorem lookupStr_append_ne (m : List (String × String)) (k v k2 : String)
    (hne : k2 ≠ k) :
    lookupStr (m ++ [(k, v)]) k2 = lookupStr m k2 := by
  induction m with
  | nil =>
      simp only [List.nil_append, lookupStr]
      exact if_neg (fun h => hne h.symm)
  | cons hd tl ih =>
      by_cases h2 : hd.1 = k2
      · simp [lookupStr, h2]
      · simp [lookupStr, h2, ih]

/-- Updating the value at a present key in place makes that key look up
the new value. -/
theorem lookupStr_mapUpdate_self (m : List (String × String)) (k v : String)
    (hany : m.any (fun kv => kv.1 = k) = true) :
    lookupStr (m.map (fun kv => if kv.1 = k then (k, v) else kv)) k = some v := by
  induction m with
  | nil => simp at hany
  | cons hd tl ih =>
      by_cases hh : hd.1 = k
      · simp [lookupStr, hh]
      · simp only [List.any_cons, Bool.or_eq_true] at hany
        have htl : tl.any (fun kv => kv.1 = k) = true := by
          rcases hany with h | h
          · exact absurd (of_decide_eq_true h) hh
          · exact h
        simp [lookupStr, hh, ih htl]

/-- Looking up a key absent from the map hits its appended binding. -/
theorem lookupStr_append_self (m : List (String × String)) (k v : String)
    (hnone : ∀ kv ∈ m, kv.1 ≠ k) :
    lookupStr (m ++ [(k, v)]) k = some v := by
  induction m with
  | nil => simp [lookupStr]
  | cons hd tl ih =>
      have hh : ¬ hd.1 = k := hnone hd (by simp)
      simp [lookupStr, hh, ih (fun kv hkv => hnone kv (by simp [hkv]))]

/-- Looking up the assigned key after `setKey` yields the new value. -/
theorem lookupStr_setKey_self (m : List (String × String)) (k v : String) :
    lookupStr (setKey m k v) k = some v := by
  unfold setKey
  by_cases hany : m.any (fun kv => kv.1 = k)
  · simp only [hany, if_true]
    exact lookupStr_mapUpdate_self m k v hany
  · simp only [hany, if_false]
    refine lookupStr_append_self m k v ?_
    intro kv hkv h
    rw [List.any_eq_true] at hany
    exact hany ⟨kv, hkv, by simp [h]⟩

/-- Looking up a different key after `setKey` is unchanged. -/
theorem lookupStr_setKey_ne (m : List (String × String)) (k v k2 : String)
    (hne : k2 ≠ k) :
    lookupStr (setKey m k v) k2 = lookupStr m k2 := by
  unfold setKey
  by_cases hany : m.any (fun kv => kv.1 = k)
  · simp only [hany, if_true]
    exact lookupStr_mapUpdate_ne m k v k2 hne
  · simp only [hany, if_false]
    exact lookupStr_append_ne m k v k2 hne

/-- A fold of `setKey` assignments over elements whose keys all differ
from `k` leaves lookups of `k` unchanged. -/
theorem lookupStr_foldl_setKey_of_ne {α : Type} (key val : α → String)
    (l : List α) (m : List (String × String)) (k : String)
    (h : ∀ a ∈ l, key a ≠ k) :
    lookupStr (l.foldl (fun acc a => setKey acc (key a) (val a)) m) k =
      lookupStr m k := by
  induction l generalizing m with
  | nil => rfl
  | cons x xs ih =>
      simp only [List.foldl_cons]
      rw [ih _ (fun a ha => h a (by simp [ha]))]
      exact lookupStr_setKey_ne m (key x) (val x) k (Ne.symm (h x (by simp)))

/-- After a fold of `setKey` assignments, a key whose last writer is `a`
looks up the value `a` wrote. -/
theorem lookupStr_foldl_setKey_last {α : Type} (key val : α → String)
    (l1 l2 : List α) (a : α) (m : List (String × String))
    (h : ∀ b ∈ l2, key b ≠ key a) :
    lookupStr ((l1 ++ a :: l2).foldl (fun acc x => setKey acc (key x) (val x)) m)
      (key a) = some (val a) := by
  rw [List.foldl_append]
  simp only [List.foldl_cons]
  rw [lookupStr_foldl_setKey_of_ne key val l2 _ (key a) h]
  exact lookupStr_setKey_self _ (key a) (val a)

/-- C6: the row count is the maximum token-list length across the
surviving columns (0 when none survive, and the number of emitted lines
always equals the row count); with pairwise-distinct column keys, row
`i` holds each column's `i`-th token under its key, the empty string
when the column is shorter (padding, not recycling); in particular
`name = x,y,z` with `age = 1,2` yields 3 rows whose last row has
`age = ""`. -/
theorem claim_c6_row_matrix (pairs : JVal) (del : String) (persist : JVal) :
    (buildJsonlFromKeyLists pairs del persist).2 = maxValuesLen (colsOf pairs del) ∧
    (colsOf pairs del = [] → (buildJsonlFromKeyLists pairs del persist).2 = 0) ∧
    (buildJsonlFromKeyLists pairs del persist).1.length =
      (buildJsonlFromKeyLists pairs del persist).2 ∧
    (((colsOf pairs del).map Col.key).Nodup →
      ∀ col ∈ colsOf pairs del, ∀ i : Nat,
        lookupStr (rowObj (colsOf pairs del) (persistentObjOf persist del) i)
          col.key = some (col.values.getD i "")) ∧
    (∀ (col : Col) (i : Nat), col.values.length ≤ i → col.values.getD i "" = "") ∧
    buildJsonlFromKeyLists rowMatrixPairs "," (jarr []) =
      (["\x7b\"name\":\"x\",\"age\":\"1\"\x7d",
        "\x7b\"name\":\"y\",\"age\":\"2\"\x7d",
        "\x7b\"name\":\"z\",\"age\":\"\"\x7d"], 3) := by
  have hcount : (buildJsonlFromKeyLists pairs del persist).2 =
      maxValuesLen (colsOf pairs del) := by
    unfold buildJsonlFromKeyLists
    by_cases he : (colsOf pairs del).isEmpty
    · rw [List.isEmpty_iff] at he
      simp [he, maxValuesLen]
    · simp [he]
  refine ⟨hcount, ?_, ?_, ?_, ?_, by rfl⟩
  · intro h
    rw [hcount, h]
    rfl
  · unfold buildJsonlFromKeyLists
    by_cases he : (colsOf pairs del).isEmpty <;> simp [he]
  · intro hnodup col hcol i
    obtain ⟨s, t, hst⟩ := List.append_of_mem hcol
    rw [hst] at hnodup
    rw [List.map_append, List.map_cons] at hnodup
    have h2 := hnodup.of_append_right
    have h3 : col.key ∉ t.map Col.key := (List.nodup_cons.mp h2).1
    have h4 : ∀ b ∈ t, Col.key b ≠ Col.key col :=
      fun b hb heq => h3 (heq ▸ List.mem_map_of_mem Col.key hb)
    rw [hst]
    unfold rowObj
    exact lookupStr_foldl_setKey_last Col.key (fun c => c.values.getD i "")
      s t col (persistentObjOf persist del) h4
  · intro col i hlen
    exact List.getD_eq_default col.values "" hlen

/-- C6 witness: in the `name`/`age` example the third row (index 2)
pads the short `age` column with the empty string. -/
theorem claim_c6_witness :
    lookupStr (rowObj (colsOf rowMatrixPairs ",")
      (persistentObjOf (jarr []) ",") 2) "age" = some "" := by
  have h := (claim_c6_row_matrix rowMatrixPairs "," (jarr [])).2.2.2.1
    (by decide) (Col.mk "age" ["1", "2"]) (by decide) 2
  exact h.trans (by rfl)

/-- C7 counterexample: with two persistent fields sharing the key `s`
(first tokens `a` then `b`) and a single column `c`, no surviving column
defines `s`, yet the first field's token `a` does not appear under `s`
in the generated row — the later persistent field overwrote it, so the
claim as stated fails at this input. -/
theorem claim_c7_counterexample :
    colsOf dupPersistPairs "," = [Col.mk "c" ["x"]] ∧
    persistentEntries dupPersistFields "," = [("s", "a"), ("s", "b")] ∧
    firstToken (splitValueList (some (JVal.str "a")) ",") = "a" ∧
    buildJsonlFromKeyLists dupPersistPairs "," dupPersistFields =
      (["\x7b\"s\":\"b\",\"c\":\"x\"\x7d"], 1) ∧
    lookupStr (rowObj (colsOf dupPersistPairs ",")
      (persistentObjOf dupPersistFields ",") 0) "s" = some "b" ∧
    some "b" ≠ some "a" := by
  exact ⟨rfl, rfl, rfl, rfl, rfl, by decide⟩

/-- C7 amended: a persistent field with a non-empty trimmed key that no
later persistent field repeats broadcasts its first token under that key
into every generated row, except that a surviving column with the same
key overwrites it — the value under a column key is always the (last
such) column's padded token, since persistent fields are applied first
and columns after. -/
theorem claim_c7_persistent_broadcast (pairs : JVal) (del : String)
    (persist : JVal) (l1 l2 : List (String × String)) (e : String × String)
    (hsplit : persistentEntries persist del = l1 ++ e :: l2)
    (hlast : ∀ e2 ∈ l2, e2.1 ≠ e.1) :
    (∀ i : Nat, (∀ col ∈ colsOf pairs del, col.key ≠ e.1) →
      lookupStr (rowObj (colsOf pairs del) (persistentObjOf persist del) i) e.1 =
        some e.2) ∧
    (∀ (m1 m2 : List Col) (col : Col), colsOf pairs del = m1 ++ col :: m2 →
      (∀ c2 ∈ m2, c2.key ≠ col.key) → ∀ i : Nat,
      lookupStr (rowObj (colsOf pairs del) (persistentObjOf persist del) i)
        col.key = some (col.values.getD i "")) := by
  constructor
  · intro i hcols
    unfold rowObj
    rw [lookupStr_foldl_setKey_of_ne Col.key (fun c => c.values.getD i "")
      (colsOf pairs del) (persistentObjOf persist del) e.1 hcols]
    unfold persistentObjOf
    rw [hsplit]
    exact lookupStr_foldl_setKey_last Prod.fst Prod.snd l1 l2 e [] hlast
  · intro m1 m2 col hsplit2 hlast2 i
    rw [hsplit2]
    unfold rowObj
    exact lookupStr_foldl_setKey_last Col.key (fun c => c.values.getD i "")
      m1 m2 col (persistentObjOf persist del) hlast2

/-- C7 amended witness: a persistent `source = web` appears in both rows
of a two-row matrix whose columns do not define `source`, and in the
duplicate-key example the column value `x` appears under the column key
`c`. -/
theorem claim_c7_witness :
    lookupStr (rowObj
      (colsOf (jarr [jobj [("key", JVal.str "name"), ("value", JVal.str "x,y")]]) ",")
      (persistentObjOf (jarr [jobj [("key", JVal.str "source"),
        ("value", JVal.str "web")]]) ",") 1) "source" = some "web" ∧
    lookupStr (rowObj (colsOf dupPersistPairs ",")
      (persistentObjOf dupPersistFields ",") 0) "c" = some "x" := by
  constructor
  · exact (claim_c7_persistent_broadcast
      (jarr [jobj [("key", JVal.str "name"), ("value", JVal.str "x,y")]]) ","
      (jarr [jobj [("key", JVal.str "source"), ("value", JVal.str "web")]])
      [] [] ("source", "web") rfl (by simp)).1 1 (by decide)
  · exact ((claim_c7_persistent_broadcast dupPersistPairs "," dupPersistFields
      [("s", "a")] [] ("s", "b") rfl (by simp)).2 [] [] (Col.mk "c" ["x"])
      rfl (by simp) 0).trans (by rfl)
